import Mathlib

/-!
Shallow embedding of the ANN index controller in `src/ml/src/inference/ann_index.py`
(class `ANNIndexConfig`, class `ANNIndex`: `build`, `query`, `query_batch`, `save`,
`load`).

The proximity-graph library (`hnswlib`) is an external dependency of the repository;
it is embedded here through its documented contract as restated by the specification:
an index holds labelled vectors, `knn_query` returns up to `k` `(label, distance)`
pairs ordered by ascending distance, distances are squared Euclidean for the `l2`
space and `1 - dot` for `ip`/`cosine` (for `cosine` the specification states vectors
are pre-normalized to unit length, under which the cosine distance is exactly
`1 - dot`). Scalars are rationals; file-system effects are made explicit (`save`
returns the artifact directory it writes, `load` consumes one). Failure paths are
modelled by `Except.error`, leaving the caller with the prior state.
-/

namespace AnnIndexSpec

/-- Configuration record, from `ANNIndexConfig` in `ann_index.py`. -/
structure ANNIndexConfig where
  space : String
  ef_construction : Nat
  M : Nat
  ef_search : Nat
  max_elements : Nat
deriving DecidableEq

/-- Field defaults of `ANNIndexConfig`: `space="cosine"`, `ef_construction=200`,
`M=16`, `ef_search=100`, `max_elements=1000000`. -/
def ANNIndexConfig.defaults : ANNIndexConfig :=
  { space := "cosine", ef_construction := 200, M := 16, ef_search := 100,
    max_elements := 1000000 }

/-- Dot product of two rational vectors. -/
def dotList (a b : List Rat) : Rat := (List.zipWith (fun x y => x * y) a b).sum

/-- Squared Euclidean distance between two rational vectors. -/
def sqL2 (a b : List Rat) : Rat := (List.zipWith (fun x y => (x - y) * (x - y)) a b).sum

/-- Distance function selected by the similarity space (hnswlib contract): squared
Euclidean for `l2`, `1 - dot` for `ip` and for `cosine` on pre-normalized vectors. -/
def hnswDist (space : String) (a b : List Rat) : Rat :=
  if space = "l2" then sqL2 a b else 1 - dotList a b

/-- State of an `hnswlib.Index`: the similarity space and dimension fixed at
construction, the capacity fixed by `init_index`, the query-time beam width `ef`,
and the stored `(label, vector)` items in insertion order. -/
structure HnswIndex where
  space : String
  dim : Nat
  max_elements : Nat
  ef : Nat
  items : List (Nat × List Rat)
deriving DecidableEq

/-- Constructor `hnswlib.Index(space, dim)`: rejects unknown space names. -/
def HnswIndex.new (space : String) (dim : Nat) : Except String HnswIndex :=
  if space = "l2" ∨ space = "ip" ∨ space = "cosine" then
    .ok { space := space, dim := dim, max_elements := 0, ef := 10, items := [] }
  else
    .error "Space name must be one of l2, ip, or cosine."

/-- `init_index(max_elements, ...)`: allocates the graph with the given capacity
(the recall parameters `ef_construction` and `M` shape the approximate graph only
and have no observable effect in this exact-contract model). -/
def HnswIndex.init_index (idx : HnswIndex) (max_elements : Nat) : HnswIndex :=
  { idx with max_elements := max_elements, items := [] }

/-- `add_items(data, ids)`: fails past capacity or on vectors of the wrong width,
otherwise appends the labelled vectors. -/
def HnswIndex.add_items (idx : HnswIndex) (new_items : List (Nat × List Rat)) :
    Except String HnswIndex :=
  if idx.max_elements < idx.items.length + new_items.length then
    .error "The number of elements exceeds the specified limit"
  else if new_items.any (fun it => decide (it.2.length ≠ idx.dim)) then
    .error "Wrong dimensionality of the vectors"
  else
    .ok { idx with items := idx.items ++ new_items }

/-- `set_ef(ef)`: records the query-time beam width. -/
def HnswIndex.set_ef (idx : HnswIndex) (ef : Nat) : HnswIndex := { idx with ef := ef }

/-- `get_current_count()`: number of stored elements. -/
def HnswIndex.get_current_count (idx : HnswIndex) : Nat := idx.items.length

/-- `knn_query(embedding, k)`: the `k` stored items nearest to the query, as
`(label, distance)` pairs ordered by ascending distance (the graph's contract);
fewer than `k` when the index holds fewer elements. -/
def HnswIndex.knn_query (idx : HnswIndex) (embedding : List Rat) (k : Nat) :
    List (Nat × Rat) :=
  ((idx.items.map (fun it => (it.1, hnswDist idx.space it.2 embedding))).insertionSort
    (fun p q => p.2 ≤ q.2)).take k

/-- Metadata dictionary attached to the index. Every field is optional: after `load`
the in-memory metadata is whatever dictionary the sidecar held
(`data.get("metadata", {})`), which may be empty or partial. -/
structure IndexMetadata where
  n_elements : Option Nat
  dim : Option Nat
  space : Option String
  built_at : Option String
  ef_construction : Option Nat
  M : Option Nat
deriving DecidableEq

/-- Empty metadata dictionary (`{}`). -/
def IndexMetadata.empty : IndexMetadata :=
  { n_elements := none, dim := none, space := none, built_at := none,
    ef_construction := none, M := none }

/-- State of an `ANNIndex` controller: configuration, dimension, the optional graph,
the handle-to-external-ID dictionary (and its inverse), and metadata. Dictionaries
are association lists with distinct keys. -/
structure ANNIndex where
  config : ANNIndexConfig
  dim : Nat
  index : Option HnswIndex
  id_to_user : List (Nat × String)
  user_to_id : List (String × Nat)
  metadata : IndexMetadata
deriving DecidableEq

/-- Constructor `ANNIndex(config=None, dim=384)`: `config or ANNIndexConfig()`. -/
def ANNIndex.new (config : Option ANNIndexConfig) (dim : Nat) : ANNIndex :=
  { config := config.getD ANNIndexConfig.defaults, dim := dim, index := none,
    id_to_user := [], user_to_id := [], metadata := IndexMetadata.empty }

/-- `ANNIndex.build(embeddings, user_ids)`. `now` stands for
`datetime.utcnow().isoformat()`. The graph is allocated with capacity
`max(n_elements, config.max_elements)`; the ID maps are built by enumeration of
`user_ids` (no length check against `embeddings` anywhere); items are inserted with
labels `0..n_elements-1` (`np.arange(n_elements)` zipped with the rows). -/
def ANNIndex.build (st : ANNIndex) (embeddings : List (List Rat)) (user_ids : List String)
    (now : String) : Except String ANNIndex := do
  let n_elements := embeddings.length
  let idx0 ← HnswIndex.new st.config.space st.dim
  let idx1 := idx0.init_index (max n_elements st.config.max_elements)
  let idx2 ← idx1.add_items embeddings.enum
  let idx3 := idx2.set_ef st.config.ef_search
  .ok { st with
    index := some idx3,
    id_to_user := user_ids.enum,
    user_to_id := user_ids.enum.map (fun p => (p.2, p.1)),
    metadata := { n_elements := some n_elements, dim := some st.dim,
                  space := some st.config.space, built_at := some now,
                  ef_construction := some st.config.ef_construction,
                  M := some st.config.M } }

/-- Over-fetch size computed by `query`:
`query_k = k + (len(exclude_ids) if exclude_ids else 0) + 10` followed by
`query_k = min(query_k, self.index.get_current_count())`. An absent (`None`) or
empty exclusion list is falsy in Python and contributes 0. -/
def queryRequestK (k : Nat) (exclude_ids : Option (List String)) (current_count : Nat) :
    Nat :=
  let query_k := k + (match exclude_ids with
    | some l => if l.isEmpty then 0 else l.length
    | none => 0) + 10
  min query_k current_count

/-- Body of the per-candidate step shared by `query` (with an exclusion set) and
`query_batch` (which passes `excl = []`): translate the internal handle with
`self.id_to_user.get(internal_id)`, keep the candidate when the ID is truthy
(present and non-empty) and not excluded, and convert the distance to a similarity
(`1 - distance` in cosine space, `-distance` otherwise). -/
def keepCandidate (id_to_user : List (Nat × String)) (space : String) (excl : List String)
    (c : Nat × Rat) : Option (String × Rat) :=
  match id_to_user.lookup c.1 with
  | some user_id =>
      if user_id ≠ "" ∧ user_id ∉ excl then
        some (user_id, if space = "cosine" then 1 - c.2 else -c.2)
      else none
  | none => none

/-- Result-collection loop of `query`: walks the fetched candidates in order,
appends each survivor, and breaks once `len(results) >= k` — the check runs after
each append, so `k = 0` still yields one result when any survivor exists. `acc` is
`len(results)` before the current step. -/
def queryLoop (id_to_user : List (Nat × String)) (space : String) (excl : List String)
    (k : Nat) : Nat → List (Nat × Rat) → List (String × Rat)
  | _, [] => []
  | acc, c :: rest =>
    match keepCandidate id_to_user space excl c with
    | some r =>
        if k ≤ acc + 1 then [r]
        else r :: queryLoop id_to_user space excl k (acc + 1) rest
    | none => queryLoop id_to_user space excl k acc rest

/-- `ANNIndex.query(embedding, k, exclude_ids)`: raises when no index is built;
otherwise fetches `query_k` candidates from the graph and runs the collection
loop. -/
def ANNIndex.query (st : ANNIndex) (embedding : List Rat) (k : Nat)
    (exclude_ids : Option (List String)) : Except String (List (String × Rat)) :=
  match st.index with
  | none => .error "Index not built. Call build() first."
  | some idx =>
    let query_k := queryRequestK k exclude_ids idx.get_current_count
    let candidates := idx.knn_query embedding query_k
    let exclude_set := exclude_ids.getD []
    .ok (queryLoop st.id_to_user st.config.space exclude_set k 0 candidates)

/-- `ANNIndex.query_batch(embeddings, k)`: raises when no index is built; otherwise
processes each row independently — `knn_query` with `k` (no over-fetch), translation
and truthiness filter (no exclusion set), no early break. -/
def ANNIndex.query_batch (st : ANNIndex) (embeddings : List (List Rat)) (k : Nat) :
    Except String (List (List (String × Rat))) :=
  match st.index with
  | none => .error "Index not built. Call build() first."
  | some idx =>
    .ok (embeddings.map (fun row =>
      (idx.knn_query row k).filterMap (keepCandidate st.id_to_user st.config.space [])))

/-- Content of the persisted `index.bin`: the graph geometry (the space is not
stored in the binary — it is re-imposed by the constructor at load time). -/
structure IndexBin where
  dim : Nat
  max_elements : Nat
  items : List (Nat × List Rat)
deriving DecidableEq

/-- A file on disk: absent, present but unparseable, or parsed content. -/
inductive FileContent (α : Type) where
  | absent
  | unreadable
  | ok (data : α)
deriving DecidableEq

/-- Parsed content of `mappings.json`: each top-level key may be missing. -/
structure SidecarData where
  id_to_user : Option (List (Nat × String))
  metadata : Option IndexMetadata
deriving DecidableEq

/-- The artifact directory written by `save` and read by `load`. -/
structure ArtifactDir where
  index_bin : FileContent IndexBin
  mappings : FileContent SidecarData
deriving DecidableEq

/-- `ANNIndex.save(path)`: raises when no index is built; otherwise writes the graph
binary and the sidecar `{"id_to_user": ..., "metadata": ...}`. -/
def ANNIndex.save (st : ANNIndex) : Except String ArtifactDir :=
  match st.index with
  | none => .error "No index to save"
  | some idx =>
    .ok { index_bin := .ok { dim := idx.dim, max_elements := idx.max_elements,
                             items := idx.items },
          mappings := .ok { id_to_user := some st.id_to_user,
                            metadata := some st.metadata } }

/-- `ANNIndex.load(path)`: fails when `mappings.json` is absent or unparseable or
lacks the `"id_to_user"` key; takes the metadata dictionary with `{}` as default;
resolves `dim = metadata.get("dim", self.dim)` and
`space = metadata.get("space", self.config.space)`; constructs a fresh graph of that
space and dimension, loads the binary into it (failing when the binary is missing,
corrupt, or of mismatched data size), and re-applies the configured `ef_search`. -/
def ANNIndex.load (st : ANNIndex) (dir : ArtifactDir) : Except String ANNIndex :=
  match dir.mappings with
  | .absent => .error "FileNotFoundError: mappings.json"
  | .unreadable => .error "JSONDecodeError: mappings.json"
  | .ok data =>
    match data.id_to_user with
    | none => .error "KeyError: id_to_user"
    | some m =>
      let md := data.metadata.getD IndexMetadata.empty
      let dim := md.dim.getD st.dim
      let space := md.space.getD st.config.space
      match HnswIndex.new space dim with
      | .error e => .error e
      | .ok idx0 =>
        match dir.index_bin with
        | .absent => .error "FileNotFoundError: index.bin"
        | .unreadable => .error "RuntimeError: index.bin"
        | .ok bin =>
          if bin.dim = dim then
            .ok { st with
              index := some (HnswIndex.set_ef
                { idx0 with max_elements := bin.max_elements, items := bin.items }
                st.config.ef_search),
              id_to_user := m,
              user_to_id := m.map (fun p => (p.2, p.1)),
              metadata := md,
              dim := dim }
          else .error "RuntimeError: data size mismatch"

/-- Number of fetched candidates that survive the filter of `query`: translated
external ID present in the map, non-empty, and outside the exclusion set. -/
def survivorCount (id_to_user : List (Nat × String)) (excl : List String)
    (candidates : List (Nat × Rat)) : Nat :=
  candidates.countP (fun c => match id_to_user.lookup c.1 with
    | some user_id => decide (user_id ≠ "" ∧ user_id ∉ excl)
    | none => false)

/-- Stated from the words of claim C1, for comparison with the code: the number of
non-excluded candidates among the `query_k` candidates fetched from the graph — a
fetched candidate counts whenever its translated external ID does not belong to the
exclusion set (in particular a candidate with an empty or untranslatable ID counts
when the exclusion set is empty). -/
def specNonExcludedFetchedCount (st : ANNIndex) (embedding : List Rat) (k : Nat)
    (exclude_ids : Option (List String)) : Nat :=
  match st.index with
  | none => 0
  | some idx =>
    ((idx.knn_query embedding (queryRequestK k exclude_ids idx.get_current_count)).filter
      (fun c => decide (((st.id_to_user.lookup c.1).getD "") ∉ exclude_ids.getD []))).length

/-! ### Lemmas about the candidate pipeline -/

theorem keepCandidate_eq_some {id_to_user : List (Nat × String)} {space : String}
    {excl : List String} {c : Nat × Rat} {p : String × Rat} :
    keepCandidate id_to_user space excl c = some p ↔
      id_to_user.lookup c.1 = some p.1 ∧ p.1 ≠ "" ∧ p.1 ∉ excl ∧
        p.2 = (if space = "cosine" then 1 - c.2 else -c.2) := by
  obtain ⟨a, b⟩ := p
  simp only [keepCandidate]
  cases h : id_to_user.lookup c.1 with
  | none => simp
  | some uid =>
    by_cases h1 : uid ≠ "" ∧ uid ∉ excl
    · simp only [if_pos h1, Option.some.injEq, Prod.mk.injEq]
      constructor
      · rintro ⟨rfl, rfl⟩
        exact ⟨rfl, h1.1, h1.2, rfl⟩
      · rintro ⟨ha, -, -, hb⟩
        cases ha
        exact ⟨rfl, hb.symm⟩
    · simp only [if_neg h1]
      constructor
      · rintro ⟨⟩
      · rintro ⟨ha, h2, h3, -⟩
        cases ha
        exact absurd ⟨h2, h3⟩ h1

theorem queryLoop_eq_take (id_to_user : List (Nat × String)) (space : String)
    (excl : List String) (k : Nat) :
    ∀ (l : List (Nat × Rat)) (acc : Nat),
      queryLoop id_to_user space excl k acc l =
        (l.filterMap (keepCandidate id_to_user space excl)).take (max (k - acc) 1)
  | [], _ => by simp [queryLoop]
  | c :: rest, acc => by
    cases hkeep : keepCandidate id_to_user space excl c with
    | none =>
      simp only [queryLoop, hkeep, List.filterMap_cons]
      exact queryLoop_eq_take id_to_user space excl k rest acc
    | some r =>
      simp only [queryLoop, hkeep, List.filterMap_cons]
      by_cases hk : k ≤ acc + 1
      · rw [if_pos hk]
        have hmax : max (k - acc) 1 = 1 := by omega
        rw [hmax]
        rfl
      · rw [if_neg hk, queryLoop_eq_take id_to_user space excl k rest (acc + 1)]
        have hmax : max (k - acc) 1 = (max (k - (acc + 1)) 1) + 1 := by omega
        rw [hmax]
        rfl

theorem length_filterMap_keep (id_to_user : List (Nat × String)) (space : String)
    (excl : List String) :
    ∀ l : List (Nat × Rat),
      (l.filterMap (keepCandidate id_to_user space excl)).length =
        survivorCount id_to_user excl l
  | [] => rfl
  | c :: rest => by
    have ih := length_filterMap_keep id_to_user space excl rest
    simp only [List.filterMap_cons, survivorCount, List.countP_cons] at ih ⊢
    cases h : id_to_user.lookup c.1 with
    | none => simp [keepCandidate, h, ih]
    | some uid =>
      by_cases h1 : uid ≠ "" ∧ uid ∉ excl
      · simp [keepCandidate, h, h1, ih]
      · simp [keepCandidate, h, h1, ih]

theorem map_fst_filterMap_keep (id_to_user : List (Nat × String)) (excl : List String)
    (sp1 sp2 : String) :
    ∀ l : List (Nat × Rat),
      (l.filterMap (keepCandidate id_to_user sp1 excl)).map Prod.fst =
        (l.filterMap (keepCandidate id_to_user sp2 excl)).map Prod.fst
  | [] => rfl
  | c :: rest => by
    have ih := map_fst_filterMap_keep id_to_user excl sp1 sp2 rest
    simp only [List.filterMap_cons]
    cases h : id_to_user.lookup c.1 with
    | none => simp [keepCandidate, h, ih]
    | some uid =>
      by_cases h1 : uid ≠ "" ∧ uid ∉ excl
      · simp [keepCandidate, h, h1, ih]
      · simp [keepCandidate, h, h1, ih]

theorem length_filterMap_of_isSome {α β : Type} (f : α → Option β) :
    ∀ l : List α, (∀ c ∈ l, (f c).isSome) → (l.filterMap f).length = l.length
  | [], _ => rfl
  | c :: rest, h => by
    cases hf : f c with
    | none =>
      have := h c (List.mem_cons_self c rest)
      rw [hf] at this
      exact absurd this (by simp)
    | some b =>
      simp only [List.filterMap_cons, hf, List.length_cons]
      exact congrArg (· + 1)
        (length_filterMap_of_isSome f rest (fun x hx => h x (List.mem_cons_of_mem c hx)))

/-! ### Lemmas about the modelled graph -/

instance : IsTotal (Nat × Rat) (fun p q => p.2 ≤ q.2) := ⟨fun a b => le_total a.2 b.2⟩

instance : IsTrans (Nat × Rat) (fun p q => p.2 ≤ q.2) := ⟨fun _ _ _ h h2 => le_trans h h2⟩

theorem knn_query_sorted (idx : HnswIndex) (embedding : List Rat) (k : Nat) :
    (idx.knn_query embedding k).Pairwise (fun p q => p.2 ≤ q.2) :=
  (List.sorted_insertionSort _ _).sublist (List.take_sublist _ _)

theorem knn_query_length (idx : HnswIndex) (embedding : List Rat) (k : Nat) :
    (idx.knn_query embedding k).length = min k idx.items.length := by
  simp [HnswIndex.knn_query, List.length_insertionSort]

theorem mem_knn_query {idx : HnswIndex} {embedding : List Rat} {k : Nat} {c : Nat × Rat}
    (h : c ∈ idx.knn_query embedding k) :
    ∃ it ∈ idx.items, c = (it.1, hnswDist idx.space it.2 embedding) := by
  have h2 := (List.take_sublist _ _).subset h
  have h3 := (List.perm_insertionSort _ _).mem_iff.1 h2
  obtain ⟨it, hit, rfl⟩ := List.mem_map.1 h3
  exact ⟨it, hit, rfl⟩

theorem knn_query_congr {i1 i2 : HnswIndex} (hsp : i1.space = i2.space)
    (hit : i1.items = i2.items) (embedding : List Rat) (k : Nat) :
    i1.knn_query embedding k = i2.knn_query embedding k := by
  simp [HnswIndex.knn_query, hsp, hit]

/-! ### Lemmas about enumeration dictionaries -/

theorem lookup_enumFrom {α : Type} (l : List α) :
    ∀ (n i : Nat), i < l.length → (List.enumFrom n l).lookup (n + i) = l.get? i := by
  induction l with
  | nil => exact fun n i h => absurd h (Nat.not_lt_zero i)
  | cons x xs ih =>
    intro n i h
    cases i with
    | zero => simp [List.enumFrom, List.lookup]
    | succ j =>
      have hne : (n + (j + 1) == n) = false := by
        simp only [beq_eq_false_iff_ne, ne_eq]
        omega
      simp only [List.enumFrom, List.lookup, hne]
      have harith : n + (j + 1) = (n + 1) + j := by omega
      rw [harith, ih (n + 1) j (Nat.lt_of_succ_lt_succ h)]
      rfl

theorem lookup_enum {α : Type} (l : List α) (i : Nat) (h : i < l.length) :
    l.enum.lookup i = l.get? i := by
  have := lookup_enumFrom l 0 i h
  simpa [List.enum] using this

/-! ### Characterization of build, save and load -/

/-- Successful result of `build`, spelled out. -/
def builtState (st : ANNIndex) (embeddings : List (List Rat)) (user_ids : List String)
    (now : String) : ANNIndex :=
  { st with
    index := some { space := st.config.space, dim := st.dim,
                    max_elements := max embeddings.length st.config.max_elements,
                    ef := st.config.ef_search, items := embeddings.enum },
    id_to_user := user_ids.enum,
    user_to_id := user_ids.enum.map (fun p => (p.2, p.1)),
    metadata := { n_elements := some embeddings.length, dim := some st.dim,
                  space := some st.config.space, built_at := some now,
                  ef_construction := some st.config.ef_construction,
                  M := some st.config.M } }

theorem build_ok (st : ANNIndex) (embeddings : List (List Rat)) (user_ids : List String)
    (now : String)
    (hspace : st.config.space = "l2" ∨ st.config.space = "ip" ∨ st.config.space = "cosine")
    (hdim : ∀ e ∈ embeddings, e.length = st.dim) :
    st.build embeddings user_ids now = .ok (builtState st embeddings user_ids now) := by
  have hany : embeddings.enum.any (fun it => decide (it.2.length ≠ st.dim)) = false := by
    rw [List.any_eq_false]
    intro it hit
    have hmem : it.2 ∈ embeddings := by
      have hg := List.mem_enum_iff_get?.1 hit
      exact List.get?_mem hg
    simp [hdim it.2 hmem]
  have hcap : ¬ (max embeddings.length st.config.max_elements <
      ([] : List (Nat × List Rat)).length + embeddings.enum.length) := by
    simp only [List.length_nil, Nat.zero_add, List.enum_length, Nat.not_lt]
    exact le_max_left _ _
  simp only [ANNIndex.build, HnswIndex.new, if_pos hspace, HnswIndex.init_index,
    HnswIndex.add_items, HnswIndex.set_ef, bind, Except.bind, if_neg hcap, hany,
    Bool.false_eq_true, if_false, builtState, List.nil_append]

theorem build_ok_inv {st : ANNIndex} {embeddings : List (List Rat)}
    {user_ids : List String} {now : String} {st' : ANNIndex}
    (h : st.build embeddings user_ids now = .ok st') :
    (st.config.space = "l2" ∨ st.config.space = "ip" ∨ st.config.space = "cosine") ∧
    (∀ e ∈ embeddings, e.length = st.dim) ∧
    st' = builtState st embeddings user_ids now := by
  by_cases hspace : st.config.space = "l2" ∨ st.config.space = "ip" ∨
      st.config.space = "cosine"
  · by_cases hdim : ∀ e ∈ embeddings, e.length = st.dim
    · refine ⟨hspace, hdim, ?_⟩
      rw [build_ok st embeddings user_ids now hspace hdim] at h
      exact (Except.ok.inj h).symm
    · exfalso
      push_neg at hdim
      obtain ⟨e, he, hne⟩ := hdim
      obtain ⟨i, hi⟩ := List.mem_iff_get?.1 he
      have hmem : (i, e) ∈ embeddings.enum := List.mem_enum_iff_get?.2 hi
      have hany : embeddings.enum.any (fun it => decide (it.2.length ≠ st.dim)) = true :=
        List.any_eq_true.2 ⟨(i, e), hmem, by simp [hne]⟩
      have hcap : ¬ (max embeddings.length st.config.max_elements <
          ([] : List (Nat × List Rat)).length + embeddings.enum.length) := by
        simp only [List.length_nil, Nat.zero_add, List.enum_length, Nat.not_lt]
        exact le_max_left _ _
      simp only [ANNIndex.build, HnswIndex.new, if_pos hspace, HnswIndex.init_index,
        HnswIndex.add_items, HnswIndex.set_ef, bind, Except.bind, if_neg hcap, hany,
        if_true] at h
      exact Except.noConfusion h
  · exfalso
    simp only [ANNIndex.build, HnswIndex.new, if_neg hspace, bind, Except.bind] at h
    exact Except.noConfusion h

/-- Loading a saved built index into any controller `f` yields the graph geometry and
identifier map of the build, the persisted space and dimension, and the *live*
configuration of `f` (whose `space` field later drives score conversion). -/
theorem load_save_of_build {st0 st f : ANNIndex} {embeddings : List (List Rat)}
    {user_ids : List String} {now : String} {dir : ArtifactDir}
    (hb : st0.build embeddings user_ids now = .ok st) (hs : st.save = .ok dir) :
    f.load dir = .ok { f with
      index := some { space := st0.config.space, dim := st0.dim,
                      max_elements := max embeddings.length st0.config.max_elements,
                      ef := f.config.ef_search, items := embeddings.enum },
      id_to_user := user_ids.enum,
      user_to_id := user_ids.enum.map (fun p => (p.2, p.1)),
      metadata := st.metadata,
      dim := st0.dim } := by
  obtain ⟨hspace, -, rfl⟩ := build_ok_inv hb
  simp only [ANNIndex.save, builtState] at hs
  have hdir := (Except.ok.inj hs).symm
  subst hdir
  simp only [ANNIndex.load, builtState, Option.getD_some, HnswIndex.new, if_pos hspace,
    HnswIndex.set_ef, eq_self_iff_true, if_true]

/-! ### Elimination lemmas for the query operations -/

theorem query_ok_built {st : ANNIndex} {emb : List Rat} {k : Nat}
    {excl : Option (List String)} {r : List (String × Rat)}
    (hq : st.query emb k excl = .ok r) : ∃ idx, st.index = some idx := by
  cases hidx : st.index with
  | none =>
    rw [ANNIndex.query, hidx] at hq
    exact Except.noConfusion hq
  | some idx => exact ⟨idx, rfl⟩

theorem query_batch_ok_built {st : ANNIndex} {embs : List (List Rat)} {k : Nat}
    {rows : List (List (String × Rat))}
    (hq : st.query_batch embs k = .ok rows) : ∃ idx, st.index = some idx := by
  cases hidx : st.index with
  | none =>
    rw [ANNIndex.query_batch, hidx] at hq
    exact Except.noConfusion hq
  | some idx => exact ⟨idx, rfl⟩

theorem query_ok_elim {st : ANNIndex} {idx : HnswIndex} (hb : st.index = some idx)
    {emb : List Rat} {k : Nat} {excl : Option (List String)} {r : List (String × Rat)}
    (hq : st.query emb k excl = .ok r) :
    r = ((idx.knn_query emb (queryRequestK k excl idx.get_current_count)).filterMap
      (keepCandidate st.id_to_user st.config.space (excl.getD []))).take (max k 1) := by
  simp only [ANNIndex.query, hb] at hq
  rw [← Except.ok.inj hq, queryLoop_eq_take]
  norm_num

theorem query_batch_ok_elim {st : ANNIndex} {idx : HnswIndex} (hb : st.index = some idx)
    {embs : List (List Rat)} {k : Nat} {rows : List (List (String × Rat))}
    (hq : st.query_batch embs k = .ok rows) :
    rows = embs.map (fun row => (idx.knn_query row k).filterMap
      (keepCandidate st.id_to_user st.config.space [])) := by
  simp only [ANNIndex.query_batch, hb] at hq
  exact (Except.ok.inj hq).symm

theorem simConv_antitone (space : String) {d d' : Rat} (h : d ≤ d') :
    (if space = "cosine" then 1 - d' else -d') ≤ (if space = "cosine" then 1 - d else -d) := by
  split <;> linarith

/-! ### Claim theorems -/

/-- C5: on a built index, the number of candidates requested from the graph by
`query` — the `k` passed to `knn_query`, equal to the number of `(handle, distance)`
pairs the graph hands back — is `min(k + |exclude_ids| + 10, current_element_count)`,
with a missing (`None`) exclusion list contributing 0; `query` processes exactly that
candidate list. -/
theorem C5_overfetch_margin (st : ANNIndex) (idx : HnswIndex) (hb : st.index = some idx)
    (embedding : List Rat) (k : Nat) (exclude_ids : Option (List String)) :
    queryRequestK k exclude_ids idx.get_current_count =
      min (k + (exclude_ids.getD []).length + 10) idx.get_current_count ∧
    (idx.knn_query embedding (queryRequestK k exclude_ids idx.get_current_count)).length =
      min (k + (exclude_ids.getD []).length + 10) idx.get_current_count ∧
    st.query embedding k exclude_ids = .ok (queryLoop st.id_to_user st.config.space
      (exclude_ids.getD []) k 0
      (idx.knn_query embedding (queryRequestK k exclude_ids idx.get_current_count))) := by
  have h1 : queryRequestK k exclude_ids idx.get_current_count =
      min (k + (exclude_ids.getD []).length + 10) idx.get_current_count := by
    cases exclude_ids with
    | none => rfl
    | some l => cases l with
      | nil => rfl
      | cons x xs => rfl
  refine ⟨h1, ?_, ?_⟩
  · rw [knn_query_length, h1]
    have : idx.get_current_count = idx.items.length := rfl
    rw [this]
    omega
  · simp [ANNIndex.query, hb]

/-- C5 witness: a concrete built two-element index with one excluded ID and `k = 1`
requests `min(1 + 1 + 10, 2) = 2` candidates. -/
theorem C5_overfetch_margin_witness :
    queryRequestK 1 (some ["b"]) (HnswIndex.get_current_count
      ⟨"cosine", 1, 1000000, 100, [(0, [1]), (1, [1])]⟩) =
    min (1 + (["b"] : List String).length + 10) (HnswIndex.get_current_count
      ⟨"cosine", 1, 1000000, 100, [(0, [1]), (1, [1])]⟩) :=
  (C5_overfetch_margin
    ⟨⟨"cosine", 200, 16, 100, 1000000⟩, 1,
      some ⟨"cosine", 1, 1000000, 100, [(0, [1]), (1, [1])]⟩,
      [(0, "a"), (1, "b")], [("a", 0), ("b", 1)],
      ⟨some 2, some 1, some "cosine", some "t", some 200, some 16⟩⟩
    ⟨"cosine", 1, 1000000, 100, [(0, [1]), (1, [1])]⟩ rfl [1] 1 (some ["b"])).1

/-- C7: on a built index, the result list of `query` is ordered by non-increasing
similarity score: the graph delivers candidates by ascending distance, and the
controller's translation, filtering and antitone score conversion preserve that
order. -/
theorem C7_ordering (st : ANNIndex) (idx : HnswIndex) (hb : st.index = some idx)
    (embedding : List Rat) (k : Nat) (exclude_ids : Option (List String))
    (r : List (String × Rat)) (hq : st.query embedding k exclude_ids = .ok r) :
    r.Pairwise (fun p q => q.2 ≤ p.2) := by
  rw [query_ok_elim hb hq]
  have hcand := knn_query_sorted idx embedding
    (queryRequestK k exclude_ids idx.get_current_count)
  have hfm : (((idx.knn_query embedding
      (queryRequestK k exclude_ids idx.get_current_count)).filterMap
        (keepCandidate st.id_to_user st.config.space
          (exclude_ids.getD [])))).Pairwise (fun p q => q.2 ≤ p.2) := by
    refine List.pairwise_filterMap.2 (hcand.imp ?_)
    intro a b hab x hx y hy
    rw [Option.mem_def] at hx hy
    rw [(keepCandidate_eq_some.1 hx).2.2.2, (keepCandidate_eq_some.1 hy).2.2.2]
    exact simConv_antitone _ hab
  exact hfm.sublist (List.take_sublist _ _)

/-- C7 witness: a concrete cosine query returns `[("a", 1), ("b", 0)]`, which is
non-increasing in score. -/
theorem C7_ordering_witness :
    ([(("a" : String), (1 : Rat)), ("b", 0)]).Pairwise (fun p q => q.2 ≤ p.2) :=
  C7_ordering
    ⟨⟨"cosine", 200, 16, 100, 1000000⟩, 1,
      some ⟨"cosine", 1, 1000000, 100, [(0, [1]), (1, [0])]⟩,
      [(0, "a"), (1, "b")], [("a", 0), ("b", 1)],
      ⟨some 2, some 1, some "cosine", some "t", some 200, some 16⟩⟩
    ⟨"cosine", 1, 1000000, 100, [(0, [1]), (1, [0])]⟩ rfl [1] 2 none
    [("a", 1), ("b", 0)] (by with_unfolding_all rfl)

/-- C6: every `(external_id, score)` pair returned by `query` or `query_batch` on a
built index comes from a fetched `(handle, distance)` candidate whose handle
translates to that ID, with score `1 - distance` when the configured space is
`"cosine"` and `-distance` for every other space. -/
theorem C6_score_conversion (st : ANNIndex) (idx : HnswIndex) (hb : st.index = some idx) :
    (∀ (embedding : List Rat) (k : Nat) (exclude_ids : Option (List String))
        (r : List (String × Rat)), st.query embedding k exclude_ids = .ok r →
      ∀ p ∈ r, ∃ c ∈ idx.knn_query embedding
          (queryRequestK k exclude_ids idx.get_current_count),
        st.id_to_user.lookup c.1 = some p.1 ∧
        p.2 = (if st.config.space = "cosine" then 1 - c.2 else -c.2)) ∧
    (∀ (embeddings : List (List Rat)) (k : Nat) (rows : List (List (String × Rat))),
        st.query_batch embeddings k = .ok rows →
      ∀ row ∈ rows, ∀ p ∈ row, ∃ embedding ∈ embeddings, ∃ c ∈ idx.knn_query embedding k,
        st.id_to_user.lookup c.1 = some p.1 ∧
        p.2 = (if st.config.space = "cosine" then 1 - c.2 else -c.2)) := by
  constructor
  · intro embedding k exclude_ids r hq p hp
    rw [query_ok_elim hb hq] at hp
    have hp2 := (List.take_sublist _ _).subset hp
    obtain ⟨c, hc, hkeep⟩ := List.mem_filterMap.1 hp2
    obtain ⟨hl, -, -, hs⟩ := keepCandidate_eq_some.1 hkeep
    exact ⟨c, hc, hl, hs⟩
  · intro embeddings k rows hq row hrow p hp
    rw [query_batch_ok_elim hb hq] at hrow
    obtain ⟨embedding, hemb, rfl⟩ := List.mem_map.1 hrow
    obtain ⟨c, hc, hkeep⟩ := List.mem_filterMap.1 hp
    obtain ⟨hl, -, -, hs⟩ := keepCandidate_eq_some.1 hkeep
    exact ⟨embedding, hemb, c, hc, hl, hs⟩

/-- C6 witness: in the concrete cosine index, the returned pair `("a", 1)` comes from
candidate `(0, 0)` and `1 = 1 - 0`. -/
theorem C6_score_conversion_witness :
    ∃ c ∈ HnswIndex.knn_query ⟨"cosine", 1, 1000000, 100, [(0, [1]), (1, [0])]⟩ [1]
        (queryRequestK 2 none (HnswIndex.get_current_count
          ⟨"cosine", 1, 1000000, 100, [(0, [1]), (1, [0])]⟩)),
      List.lookup c.1 [(0, "a"), (1, "b")] = some "a" ∧
      (1 : Rat) = (if "cosine" = "cosine" then 1 - c.2 else -c.2) :=
  (C6_score_conversion
    ⟨⟨"cosine", 200, 16, 100, 1000000⟩, 1,
      some ⟨"cosine", 1, 1000000, 100, [(0, [1]), (1, [0])]⟩,
      [(0, "a"), (1, "b")], [("a", 0), ("b", 1)],
      ⟨some 2, some 1, some "cosine", some "t", some 200, some 16⟩⟩
    ⟨"cosine", 1, 1000000, 100, [(0, [1]), (1, [0])]⟩ rfl).1
    [1] 2 none [("a", 1), ("b", 0)] (by with_unfolding_all rfl) ("a", 1)
    (List.mem_cons_self _ _)

/-- C10: the results of `query` and `query_batch` never contain an empty external ID
(nor an ID outside the identifier map): a candidate is kept only when
`id_to_user.get(handle)` yields a truthy string, so an indexed vector with external
ID `""` is silently omitted even when it is among the nearest non-excluded
candidates. -/
theorem C10_empty_id_omitted (st : ANNIndex) :
    (∀ (embedding : List Rat) (k : Nat) (exclude_ids : Option (List String))
        (r : List (String × Rat)), st.query embedding k exclude_ids = .ok r →
      ∀ p ∈ r, p.1 ≠ "" ∧ ∃ h, st.id_to_user.lookup h = some p.1) ∧
    (∀ (embeddings : List (List Rat)) (k : Nat) (rows : List (List (String × Rat))),
        st.query_batch embeddings k = .ok rows →
      ∀ row ∈ rows, ∀ p ∈ row, p.1 ≠ "" ∧ ∃ h, st.id_to_user.lookup h = some p.1) := by
  constructor
  · intro embedding k exclude_ids r hq p hp
    obtain ⟨idx, hb⟩ := query_ok_built hq
    rw [query_ok_elim hb hq] at hp
    have hp2 := (List.take_sublist _ _).subset hp
    obtain ⟨c, -, hkeep⟩ := List.mem_filterMap.1 hp2
    obtain ⟨hl, hne, -, -⟩ := keepCandidate_eq_some.1 hkeep
    exact ⟨hne, c.1, hl⟩
  · intro embeddings k rows hq row hrow p hp
    obtain ⟨idx, hb⟩ := query_batch_ok_built hq
    rw [query_batch_ok_elim hb hq] at hrow
    obtain ⟨embedding, -, rfl⟩ := List.mem_map.1 hrow
    obtain ⟨c, -, hkeep⟩ := List.mem_filterMap.1 hp
    obtain ⟨hl, hne, -, -⟩ := keepCandidate_eq_some.1 hkeep
    exact ⟨hne, c.1, hl⟩

/-- C10 witness: an index holding the vectors `[1]` (ID `""`) and `[1]` (ID `"a"`)
returns only `("a", 1)` for query `[1]`, `k = 2`, and the theorem applies to that
returned pair. -/
theorem C10_empty_id_omitted_witness :
    ("a" : String) ≠ "" ∧
    ∃ h, List.lookup h [(0, ""), (1, "a")] = some "a" :=
  (C10_empty_id_omitted
    ⟨⟨"cosine", 200, 16, 100, 1000000⟩, 1,
      some ⟨"cosine", 1, 1000000, 100, [(0, [1]), (1, [1])]⟩,
      [(0, ""), (1, "a")], [("", 0), ("a", 1)],
      ⟨some 2, some 1, some "cosine", some "t", some 200, some 16⟩⟩).1
    [1] 2 none [("a", 1)] (by with_unfolding_all rfl) ("a", 1) (List.mem_cons_self _ _)

/-- C1 (amended): on a built index, `query` returns no excluded external ID, and the
result length equals `min(k, s)` where `s` counts the fetched candidates that
actually survive the filter — those whose translated external ID is present in the
identifier map, non-empty, and outside the exclusion set. (The unamended count of
all non-excluded fetched candidates fails: a candidate with an empty-string ID is
non-excluded yet dropped, see the counterexample.) -/
theorem C1_exclusion_and_length (st : ANNIndex) (idx : HnswIndex) (hb : st.index = some idx)
    (embedding : List Rat) (k : Nat) (hk : 1 ≤ k) (exclude_ids : Option (List String))
    (r : List (String × Rat)) (hq : st.query embedding k exclude_ids = .ok r) :
    (∀ p ∈ r, p.1 ∉ exclude_ids.getD []) ∧
    r.length = min k (survivorCount st.id_to_user (exclude_ids.getD [])
      (idx.knn_query embedding (queryRequestK k exclude_ids idx.get_current_count))) := by
  rw [query_ok_elim hb hq]
  constructor
  · intro p hp
    have hp2 := (List.take_sublist _ _).subset hp
    obtain ⟨c, -, hkeep⟩ := List.mem_filterMap.1 hp2
    exact (keepCandidate_eq_some.1 hkeep).2.2.1
  · rw [List.length_take, length_filterMap_keep]
    have hmax : max k 1 = k := by omega
    rw [hmax]

/-- C1 witness: two identical unit vectors with IDs `"a"`, `"b"`, excluding `"a"`,
`k = 1`: the single returned result has length `min(1, 1)`. -/
theorem C1_exclusion_and_length_witness :
    ([(("b" : String), (1 : Rat))]).length =
      min 1 (survivorCount [(0, "a"), (1, "b")] ["a"]
        (HnswIndex.knn_query ⟨"cosine", 1, 1000000, 100, [(0, [1]), (1, [1])]⟩ [1]
          (queryRequestK 1 (some ["a"]) (HnswIndex.get_current_count
            ⟨"cosine", 1, 1000000, 100, [(0, [1]), (1, [1])]⟩)))) :=
  (C1_exclusion_and_length
    ⟨⟨"cosine", 200, 16, 100, 1000000⟩, 1,
      some ⟨"cosine", 1, 1000000, 100, [(0, [1]), (1, [1])]⟩,
      [(0, "a"), (1, "b")], [("a", 0), ("b", 1)],
      ⟨some 2, some 1, some "cosine", some "t", some 200, some 16⟩⟩
    ⟨"cosine", 1, 1000000, 100, [(0, [1]), (1, [1])]⟩ rfl [1] 1 (by decide)
    (some ["a"]) [("b", 1)] (by with_unfolding_all rfl)).2

/-- C1 counterexample: build over IDs `["", "a"]` (both vectors `[1]`), query `[1]`
with `k = 2` and no exclusions. Both fetched candidates are non-excluded, so the
claim predicts length `min(2, 2) = 2`, but the empty-ID candidate is dropped and the
result has length 1. -/
theorem C1_counterexample :
    (((ANNIndex.new none 1).build [[1], [1]] ["", "a"] "t").bind
      (fun st => st.query [1] 2 none)).map List.length = .ok 1 ∧
    (((ANNIndex.new none 1).build [[1], [1]] ["", "a"] "t").map
      (fun st => min 2 (specNonExcludedFetchedCount st [1] 2 none))) = .ok 2 :=
  ⟨by with_unfolding_all rfl, by with_unfolding_all rfl⟩

/-- C3 (amended): a `build` call whose embeddings row count differs from the
external-ID count does not fail at all: the graph is allocated and filled with every
embeddings row, and the identifier map is built from the whole ID list, despite the
mismatch (the source performs no length check). -/
theorem C3_mismatch_build_succeeds (st : ANNIndex) (embeddings : List (List Rat))
    (user_ids : List String) (now : String)
    (hspace : st.config.space = "l2" ∨ st.config.space = "ip" ∨ st.config.space = "cosine")
    (hdim : ∀ e ∈ embeddings, e.length = st.dim)
    (hmis : user_ids.length ≠ embeddings.length) :
    ∃ st' idx, st.build embeddings user_ids now = .ok st' ∧ st'.index = some idx ∧
      idx.items.length = embeddings.length ∧
      st'.id_to_user.length = user_ids.length := by
  refine ⟨builtState st embeddings user_ids now,
    ⟨st.config.space, st.dim, max embeddings.length st.config.max_elements,
      st.config.ef_search, embeddings.enum⟩,
    build_ok st embeddings user_ids now hspace hdim, rfl, ?_, ?_⟩
  · exact List.enum_length
  · exact List.enum_length

/-- C3 witness: two embeddings against one ID — the build succeeds, the graph holds
2 items, and the map holds 1 entry. -/
theorem C3_mismatch_build_succeeds_witness :
    ∃ st' idx, (ANNIndex.new none 1).build [[1], [1]] ["a"] "t" = .ok st' ∧
      st'.index = some idx ∧
      idx.items.length = ([[1], [1]] : List (List Rat)).length ∧
      st'.id_to_user.length = (["a"] : List String).length :=
  C3_mismatch_build_succeeds (ANNIndex.new none 1) [[1], [1]] ["a"] "t"
    (Or.inr (Or.inr rfl)) (by decide) (by decide)

/-- C3 counterexample: the claim says a length-mismatched `build` fails before any
graph allocation; in the code the same call returns successfully, with the graph
allocated. -/
theorem C3_counterexample :
    ((ANNIndex.new none 1).build [[1], [1]] ["a"] "t").isOk = true ∧
    (((ANNIndex.new none 1).build [[1], [1]] ["a"] "t").map
      (fun st => st.index.isSome)) = .ok true :=
  ⟨by with_unfolding_all rfl, by with_unfolding_all rfl⟩

/-- C8: `build` allocates the graph with capacity
`max(embeddings_count, config.max_elements)`; in particular a build with more
elements than the configured `max_elements` still succeeds with no capacity error. -/
theorem C8_capacity (st : ANNIndex) (embeddings : List (List Rat))
    (user_ids : List String) (now : String)
    (hspace : st.config.space = "l2" ∨ st.config.space = "ip" ∨ st.config.space = "cosine")
    (hdim : ∀ e ∈ embeddings, e.length = st.dim) :
    ∃ st' idx, st.build embeddings user_ids now = .ok st' ∧ st'.index = some idx ∧
      idx.max_elements = max embeddings.length st.config.max_elements :=
  ⟨builtState st embeddings user_ids now,
    ⟨st.config.space, st.dim, max embeddings.length st.config.max_elements,
      st.config.ef_search, embeddings.enum⟩,
    build_ok st embeddings user_ids now hspace hdim, rfl, rfl⟩

/-- C8 witness: two embeddings with `max_elements = 1`: the build succeeds and the
graph capacity is `max(2, 1) = 2`. -/
theorem C8_capacity_witness :
    ∃ st' idx, (ANNIndex.new (some ⟨"cosine", 200, 16, 100, 1⟩) 1).build [[1], [1]]
        ["a", "b"] "t" = .ok st' ∧ st'.index = some idx ∧
      idx.max_elements = max ([[1], [1]] : List (List Rat)).length
        (ANNIndex.new (some ⟨"cosine", 200, 16, 100, 1⟩) 1).config.max_elements :=
  C8_capacity (ANNIndex.new (some ⟨"cosine", 200, 16, 100, 1⟩) 1) [[1], [1]]
    ["a", "b"] "t" (Or.inr (Or.inr rfl)) (by decide)

/-- Completeness of the identifier map built by a length-matched, empty-free build:
every candidate the graph can return survives the truthiness filter. -/
theorem keep_isSome_of_complete {ids : List String} (hids : ∀ u ∈ ids, u ≠ "")
    {embs0 : List (List Rat)} (hlen : ids.length = embs0.length)
    {sp : String} {idx : HnswIndex} (hit : idx.items = embs0.enum)
    {emb : List Rat} {k : Nat} {c : Nat × Rat} (hc : c ∈ idx.knn_query emb k) :
    (keepCandidate ids.enum sp [] c).isSome := by
  obtain ⟨it, hmem, rfl⟩ := mem_knn_query hc
  rw [hit] at hmem
  have hget := List.mem_enum_iff_get?.1 hmem
  have hlt : it.1 < embs0.length := (List.get?_eq_some.1 hget).1
  have hlt2 : it.1 < ids.length := by omega
  have hlook : ids.enum.lookup it.1 = some (ids.get ⟨it.1, hlt2⟩) := by
    rw [lookup_enum ids it.1 hlt2]
    exact List.get?_eq_get hlt2
  have hne : ids.get ⟨it.1, hlt2⟩ ≠ "" := hids _ (ids.get_mem _ _)
  have hne2 : ids[it.1] ≠ "" := by simpa using hne
  simp [keepCandidate, hlook, hne2]

/-- C4 (amended): on an index built from a length-matched ID list with no empty IDs,
`query_batch` returns one inner list per input row, in input row order (entry `i` is
exactly what `query_batch` yields on the single row `i`), and each inner list has
exactly `k` results when the index holds `n ≥ k` elements, or `n < k` results
otherwise. (Without the no-empty-ID and length-match conditions the exact-`k`
guarantee fails, see the counterexample.) -/
theorem C4_batch_shape (st0 st : ANNIndex) (embs0 : List (List Rat)) (ids : List String)
    (now : String) (hbuild : st0.build embs0 ids now = .ok st)
    (hlen : ids.length = embs0.length) (hids : ∀ u ∈ ids, u ≠ "")
    (embeddings : List (List Rat)) (k : Nat) (rows : List (List (String × Rat)))
    (hq : st.query_batch embeddings k = .ok rows) :
    rows.length = embeddings.length ∧
    (∀ i (hi : i < rows.length) (hi2 : i < embeddings.length),
      st.query_batch [embeddings.get ⟨i, hi2⟩] k = .ok [rows.get ⟨i, hi⟩]) ∧
    (∀ row ∈ rows, row.length = min k embs0.length) := by
  obtain ⟨-, -, rfl⟩ := build_ok_inv hbuild
  have hidx : (builtState st0 embs0 ids now).index =
      some ⟨st0.config.space, st0.dim, max embs0.length st0.config.max_elements,
        st0.config.ef_search, embs0.enum⟩ := rfl
  have hrows := query_batch_ok_elim hidx hq
  subst hrows
  refine ⟨List.length_map _ _, ?_, ?_⟩
  · intro i hi hi2
    simp only [ANNIndex.query_batch, hidx, List.map_cons, List.map_nil]
    rw [List.get_map]
  · intro row hrow
    obtain ⟨emb, hemb, rfl⟩ := List.mem_map.1 hrow
    have hkeep : ∀ c ∈ (⟨st0.config.space, st0.dim,
        max embs0.length st0.config.max_elements, st0.config.ef_search,
        embs0.enum⟩ : HnswIndex).knn_query emb k,
        (keepCandidate (builtState st0 embs0 ids now).id_to_user
          (builtState st0 embs0 ids now).config.space [] c).isSome := by
      intro c hc
      exact keep_isSome_of_complete hids hlen rfl hc
    rw [length_filterMap_of_isSome _ _ hkeep, knn_query_length]
    simp [List.enum_length]

/-- C4 witness: index over `[[1], [0]]` with IDs `["a", "b"]`, batch of both rows,
`k = 1`: the first returned row has exactly `min(1, 2) = 1` result. -/
theorem C4_batch_shape_witness :
    ([(("a" : String), (1 : Rat))]).length = min 1 ([[1], [0]] : List (List Rat)).length :=
  (C4_batch_shape (ANNIndex.new none 1)
    ⟨⟨"cosine", 200, 16, 100, 1000000⟩, 1,
      some ⟨"cosine", 1, 1000000, 100, [(0, [1]), (1, [0])]⟩,
      [(0, "a"), (1, "b")], [("a", 0), ("b", 1)],
      ⟨some 2, some 1, some "cosine", some "t", some 200, some 16⟩⟩
    [[1], [0]] ["a", "b"] "t" (by with_unfolding_all rfl) rfl (by decide)
    [[1], [0]] 1 [[("a", 1)], [("a", 0)]] (by with_unfolding_all rfl)).2.2
    [("a", 1)] (List.mem_cons_self _ _)

/-- C4 counterexample: an index built over the single vector `[1]` with external ID
`""` holds `n = 1 ≥ k = 1` elements, yet `query_batch [[1]] 1` returns a row with 0
results — the claim's "exactly k results when n ≥ k" fails. -/
theorem C4_counterexample :
    (((ANNIndex.new none 1).build [[1]] [""] "t").bind
      (fun st => st.query_batch [[1]] 1)).map (fun rows => rows.map List.length) =
      .ok [0] ∧
    (((ANNIndex.new none 1).build [[1]] [""] "t").map
      (fun st => st.index.map HnswIndex.get_current_count)) = .ok (some 1) :=
  ⟨by with_unfolding_all rfl, by with_unfolding_all rfl⟩

/-- C2 (amended): `save` of a built index followed by `load` into a fresh controller
yields identical ranked external IDs for every query embedding, `k` and exclusion
set; the scores are also identical whenever the fresh controller's configured
similarity space matches the persisted one. (Unconditional score identity fails:
score conversion reads the live configuration's space, not the loaded metadata —
see the counterexample.) -/
theorem C2_roundtrip (st0 st f f' : ANNIndex) (embeddings : List (List Rat))
    (user_ids : List String) (now : String) (dir : ArtifactDir)
    (hbuild : st0.build embeddings user_ids now = .ok st)
    (hsave : st.save = .ok dir)
    (hload : f.load dir = .ok f')
    (emb : List Rat) (k : Nat) (exclude_ids : Option (List String)) :
    (f'.query emb k exclude_ids).map (fun r => r.map Prod.fst) =
      (st.query emb k exclude_ids).map (fun r => r.map Prod.fst) ∧
    (f.config.space = st.config.space →
      f'.query emb k exclude_ids = st.query emb k exclude_ids) := by
  rw [load_save_of_build hbuild hsave] at hload
  have hf : f' = _ := (Except.ok.inj hload).symm
  subst hf
  obtain ⟨hspace, hdim, rfl⟩ := build_ok_inv hbuild
  have hknn : HnswIndex.knn_query
      ⟨st0.config.space, st0.dim, max embeddings.length st0.config.max_elements,
        f.config.ef_search, embeddings.enum⟩ emb
      (queryRequestK k exclude_ids embeddings.enum.length) =
      HnswIndex.knn_query
      ⟨st0.config.space, st0.dim, max embeddings.length st0.config.max_elements,
        st0.config.ef_search, embeddings.enum⟩ emb
      (queryRequestK k exclude_ids embeddings.enum.length) :=
    knn_query_congr rfl rfl emb _
  have hq1 : (builtState st0 embeddings user_ids now).query emb k exclude_ids =
      .ok (queryLoop user_ids.enum st0.config.space (exclude_ids.getD []) k 0
        (HnswIndex.knn_query
          ⟨st0.config.space, st0.dim, max embeddings.length st0.config.max_elements,
            st0.config.ef_search, embeddings.enum⟩ emb
          (queryRequestK k exclude_ids embeddings.enum.length))) := rfl
  have hq2 : ANNIndex.query { f with
      index := some ⟨st0.config.space, st0.dim,
        max embeddings.length st0.config.max_elements, f.config.ef_search,
        embeddings.enum⟩,
      id_to_user := user_ids.enum,
      user_to_id := user_ids.enum.map (fun p => (p.2, p.1)),
      metadata := (builtState st0 embeddings user_ids now).metadata,
      dim := st0.dim } emb k exclude_ids =
      .ok (queryLoop user_ids.enum f.config.space (exclude_ids.getD []) k 0
        (HnswIndex.knn_query
          ⟨st0.config.space, st0.dim, max embeddings.length st0.config.max_elements,
            f.config.ef_search, embeddings.enum⟩ emb
          (queryRequestK k exclude_ids embeddings.enum.length))) := rfl
  constructor
  · rw [hq1, hq2, Except.map, Except.map, hknn, queryLoop_eq_take, queryLoop_eq_take,
      List.map_take, List.map_take,
      map_fst_filterMap_keep user_ids.enum (exclude_ids.getD []) f.config.space
        st0.config.space]
  · intro hsp
    have hsp2 : f.config.space = st0.config.space := hsp
    rw [hq1, hq2, hknn, hsp2]

/-- C2 witness: a cosine index (with a custom `ef_search = 300`) built over
`[[1], [0]]`, saved and loaded into a fresh default controller (whose space also is
cosine): the reloaded controller answers the query identically. -/
theorem C2_roundtrip_witness :
    ANNIndex.query
      ⟨⟨"cosine", 200, 16, 100, 1000000⟩, 1,
        some ⟨"cosine", 1, 1000000, 100, [(0, [1]), (1, [0])]⟩,
        [(0, "a"), (1, "b")], [("a", 0), ("b", 1)],
        ⟨some 2, some 1, some "cosine", some "t", some 200, some 16⟩⟩ [1] 2 none =
    ANNIndex.query
      ⟨⟨"cosine", 200, 16, 300, 1000000⟩, 1,
        some ⟨"cosine", 1, 1000000, 300, [(0, [1]), (1, [0])]⟩,
        [(0, "a"), (1, "b")], [("a", 0), ("b", 1)],
        ⟨some 2, some 1, some "cosine", some "t", some 200, some 16⟩⟩ [1] 2 none :=
  (C2_roundtrip (ANNIndex.new (some ⟨"cosine", 200, 16, 300, 1000000⟩) 1)
    ⟨⟨"cosine", 200, 16, 300, 1000000⟩, 1,
      some ⟨"cosine", 1, 1000000, 300, [(0, [1]), (1, [0])]⟩,
      [(0, "a"), (1, "b")], [("a", 0), ("b", 1)],
      ⟨some 2, some 1, some "cosine", some "t", some 200, some 16⟩⟩
    (ANNIndex.new none 384)
    ⟨⟨"cosine", 200, 16, 100, 1000000⟩, 1,
      some ⟨"cosine", 1, 1000000, 100, [(0, [1]), (1, [0])]⟩,
      [(0, "a"), (1, "b")], [("a", 0), ("b", 1)],
      ⟨some 2, some 1, some "cosine", some "t", some 200, some 16⟩⟩
    [[1], [0]] ["a", "b"] "t"
    ⟨.ok ⟨1, 1000000, [(0, [1]), (1, [0])]⟩,
      .ok ⟨some [(0, "a"), (1, "b")],
        some ⟨some 2, some 1, some "cosine", some "t", some 200, some 16⟩⟩⟩
    (by with_unfolding_all rfl) (by with_unfolding_all rfl)
    (by with_unfolding_all rfl) [1] 2 none).2 rfl

/-- C2 counterexample: an `"l2"` index over `[[0], [3]]` is saved and loaded into a
fresh controller with the default (cosine) configuration. The ranked IDs agree but
the scores change from `[0, -9]` (`-distance`) to `[1, -8]` (`1 - distance`): the
loaded controller converts scores with its own configured space, a difference of
exactly 1, far beyond floating-point tolerance. -/
theorem C2_counterexample :
    (do
      let st ← (ANNIndex.new (some ⟨"l2", 200, 16, 100, 1000000⟩) 1).build
        [[0], [3]] ["a", "b"] "t"
      let dir ← st.save
      let f' ← (ANNIndex.new none 384).load dir
      f'.query [0] 2 none) = .ok [("a", 1), ("b", -8)] ∧
    (do
      let st ← (ANNIndex.new (some ⟨"l2", 200, 16, 100, 1000000⟩) 1).build
        [[0], [3]] ["a", "b"] "t"
      st.query [0] 2 none) = .ok [("a", 0), ("b", -9)] ∧
    ([(("a" : String), (1 : Rat)), ("b", -8)] ≠ [("a", 0), ("b", -9)]) :=
  ⟨by with_unfolding_all rfl, by with_unfolding_all rfl, by decide⟩

/-- C9 (amended): `load` fails when the sidecar file is absent or unreadable, or
when it lacks the `id_to_user` field; but when the metadata dictionary (and hence
its recorded dimension and space) is missing, `load` proceeds anyway, substituting
the controller's current dimension and configured space. -/
theorem C9_load_failures (st : ANNIndex) (dir : ArtifactDir) :
    (dir.mappings = .absent ∨ dir.mappings = .unreadable →
      (st.load dir).isOk = false) ∧
    (∀ data, dir.mappings = .ok data → data.id_to_user = none →
      (st.load dir).isOk = false) ∧
    (∀ data m st', dir.mappings = .ok data → data.id_to_user = some m →
      data.metadata = none → st.load dir = .ok st' →
      st'.dim = st.dim ∧ st'.index.map HnswIndex.space = some st.config.space) := by
  refine ⟨?_, ?_, ?_⟩
  · rintro (h | h) <;> simp [ANNIndex.load, h, Except.isOk, Except.toBool]
  · intro data hm hid
    simp [ANNIndex.load, hm, hid, Except.isOk, Except.toBool]
  · intro data m st' hm hid hmd hload
    simp only [ANNIndex.load, hm, hid, hmd, Option.getD_none, IndexMetadata.empty]
      at hload
    by_cases hv : st.config.space = "l2" ∨ st.config.space = "ip" ∨
        st.config.space = "cosine"
    · simp only [HnswIndex.new, if_pos hv] at hload
      cases hbin : dir.index_bin with
      | absent =>
        simp only [hbin] at hload
        exact Except.noConfusion hload
      | unreadable =>
        simp only [hbin] at hload
        exact Except.noConfusion hload
      | ok bin =>
        simp only [hbin] at hload
        by_cases hbd : bin.dim = st.dim
        · rw [if_pos hbd] at hload
          rw [← Except.ok.inj hload]
          exact ⟨rfl, rfl⟩
        · rw [if_neg hbd] at hload
          exact Except.noConfusion hload
    · simp only [HnswIndex.new, if_neg hv] at hload
      exact Except.noConfusion hload

/-- C9 witness: an absent sidecar and a sidecar without `id_to_user` both make
`load` fail; a sidecar with `id_to_user` but no metadata loads successfully with the
controller's dimension 1 and configured cosine space substituted. -/
theorem C9_load_failures_witness :
    ((ANNIndex.new none 1).load ⟨.ok ⟨1, 2, [(0, [1])]⟩, .absent⟩).isOk = false ∧
    ((ANNIndex.new none 1).load
      ⟨.ok ⟨1, 2, [(0, [1])]⟩, .ok ⟨none, none⟩⟩).isOk = false ∧
    ((⟨⟨"cosine", 200, 16, 100, 1000000⟩, 1, some ⟨"cosine", 1, 2, 100, [(0, [1])]⟩,
        [(0, "a")], [("a", 0)],
        ⟨none, none, none, none, none, none⟩⟩ : ANNIndex).dim =
      (ANNIndex.new none 1).dim ∧
     (⟨⟨"cosine", 200, 16, 100, 1000000⟩, 1, some ⟨"cosine", 1, 2, 100, [(0, [1])]⟩,
        [(0, "a")], [("a", 0)],
        ⟨none, none, none, none, none, none⟩⟩ : ANNIndex).index.map HnswIndex.space =
      some (ANNIndex.new none 1).config.space) :=
  ⟨(C9_load_failures (ANNIndex.new none 1)
      ⟨.ok ⟨1, 2, [(0, [1])]⟩, .absent⟩).1 (Or.inl rfl),
   (C9_load_failures (ANNIndex.new none 1)
      ⟨.ok ⟨1, 2, [(0, [1])]⟩, .ok ⟨none, none⟩⟩).2.1 ⟨none, none⟩ rfl rfl,
   (C9_load_failures (ANNIndex.new none 1)
      ⟨.ok ⟨1, 2, [(0, [1])]⟩, .ok ⟨some [(0, "a")], none⟩⟩).2.2
      ⟨some [(0, "a")], none⟩ [(0, "a")] _ rfl rfl rfl (by with_unfolding_all rfl)⟩

/-- C9 counterexample: a readable sidecar carrying `id_to_user` but no metadata —
hence no recorded dimension or space — does not make `load` fail: the claim says it
must, but `load` succeeds with the controller's own dimension and configured space
substituted in. -/
theorem C9_counterexample :
    ((ANNIndex.new none 1).load
      ⟨.ok ⟨1, 2, [(0, [1])]⟩, .ok ⟨some [(0, "a")], none⟩⟩).isOk = true ∧
    ((ANNIndex.new none 1).load
      ⟨.ok ⟨1, 2, [(0, [1])]⟩, .ok ⟨some [(0, "a")], none⟩⟩).map
        (fun st => (st.dim, st.index.map HnswIndex.space)) = .ok (1, some "cosine") :=
  ⟨by with_unfolding_all rfl, by with_unfolding_all rfl⟩

end AnnIndexSpec
